import Mathlib

/-!
Verification development for the web crawler / signal extractor / rule scorer of
`src/Documents/NexiusLabs_Projects/Lead_Management_Agent/src/crawler.py`.

The Python module is shallowly embedded below.  Modelling conventions:

* A fetched-and-parsed HTML page is represented by a `Doc` record holding the pieces
  BeautifulSoup would extract (title tag content, meta description content, `h1`-`h3`
  heading texts in document order, `li` texts, visible text, script `src` values,
  link `href` values, inline script texts, the `<html lang>` attribute, and `<a>`
  anchors).  All string processing downstream of the parse is embedded faithfully.
* URLs are represented pre-parsed as `(scheme, netloc, path)` (the fields of
  `urllib.parse.urlparse` the module reads); anchor `href` attributes are represented
  by the constructor-shaped `Href` type matching the syntactic cases the module
  distinguishes (`#...`, `mailto:`, `tel:`, `javascript:`, absolute, root-relative,
  relative).  `urljoin` is modelled on those cases.
* The regular expressions of the module are embedded through a small character-class
  regex AST (`Pat`) with a backtracking matcher whose result list is ordered by the
  standard leftmost/greedy priority, so that the head of the list is the Python
  `re` match.  Python `re.findall` is `findAllPat` (non-overlapping, scanning left
  to right).
* Machine floats appear only in `round((raw / 48) * 100)`.  For `raw ≤ 48` the value
  `raw*100/48` is always at distance ≥ 1/12 from a rounding boundary except when it is
  exactly a half-integer, and in that case it is exactly representable as a double, so
  Python's float `round` coincides with exact round-half-to-even, embedded as
  `pyRoundDiv`.
* Network effects are abstracted by a `Web` oracle (robots decision and page fetch
  per URL); exceptions are `Option`/`Except` failures.
-/

set_option maxHeartbeats 4000000
set_option maxRecDepth 100000

namespace LeadCrawler

/-- `str.lower()` (ASCII part; every needle/label the module lowercases is ASCII). -/
def strLower (s : String) : String := String.mk (s.data.map Char.toLower)

/-- `str.strip()` (ASCII whitespace). -/
def strTrim (s : String) : String :=
  String.mk (((s.data.dropWhile Char.isWhitespace).reverse.dropWhile Char.isWhitespace).reverse)

/-- `str.split(sep)` for a one-character separator (empty pieces kept). -/
def splitOnCharGo (sep : Char) (cur : List Char) : List Char → List String
  | [] => [String.mk cur.reverse]
  | c :: cs =>
      if c == sep then String.mk cur.reverse :: splitOnCharGo sep [] cs
      else splitOnCharGo sep (c :: cur) cs

def splitOnChar (s : String) (sep : Char) : List String := splitOnCharGo sep [] s.data

def pyWordsGo (cur : List Char) : List Char → List String
  | [] => if cur.isEmpty then [] else [String.mk cur.reverse]
  | c :: cs =>
      if c.isWhitespace then
        if cur.isEmpty then pyWordsGo [] cs
        else String.mk cur.reverse :: pyWordsGo [] cs
      else pyWordsGo (c :: cur) cs

/-- Python `str.split()` (no argument): split on whitespace runs, dropping empties. -/
def pyWords (t : String) : List String := pyWordsGo [] t.data

/-- `len(t.split())` in the source's word-count tests. -/
def wordCount (t : String) : Nat := (pyWords t).length

/-- Python `" ".join(l)`. -/
def joinSp (l : List String) : String := String.intercalate " " l

/-- Substring test on char lists: Python `needle in hay`. -/
def containsSubChars (needle : List Char) : List Char → Bool
  | [] => needle.isPrefixOf []
  | c :: cs => needle.isPrefixOf (c :: cs) || containsSubChars needle cs

/-- Python `needle in hay` for strings. -/
def containsSub (hay needle : String) : Bool := containsSubChars needle.data hay.data

/-- Python regex `\w` (ASCII part; the needles used are ASCII-only). -/
def isWordChar (c : Char) : Bool := c.isAlphanum || c = '_'

def containsWordGo (needle : List Char) (prev : Option Char) : List Char → Bool
  | [] => false
  | c :: cs =>
      ((match prev with | none => true | some p => !isWordChar p)
        && needle.isPrefixOf (c :: cs)
        && (match (c :: cs).drop needle.length with
            | [] => true
            | d :: _ => !isWordChar d))
      || containsWordGo needle (some c) cs

/-- Python `re.search(r"\bneedle\b", hay)` truthiness for a nonempty word-char needle. -/
def containsWord (hay needle : String) : Bool := containsWordGo needle.data none hay.data

/-- `set(...)` content: distinct elements, first occurrences kept. -/
def dedupGo (seen : List String) : List String → List String
  | [] => []
  | s :: ss => if s ∈ seen then dedupGo seen ss else s :: dedupGo (s :: seen) ss

/-- Strict lexicographic order on code points (Python string `<`). -/
def charsLt : List Char → List Char → Bool
  | [], [] => false
  | [], _ :: _ => true
  | _ :: _, [] => false
  | a :: as, b :: bs =>
      if a.toNat < b.toNat then true
      else if b.toNat < a.toNat then false
      else charsLt as bs

def strLtb (s t : String) : Bool := charsLt s.data t.data

def insertSorted (s : String) : List String → List String
  | [] => [s]
  | t :: ts => if strLtb s t then s :: t :: ts else t :: insertSorted s ts

/-- Python `sorted(set(l))`: distinct elements in ascending code-point order. -/
def sortedSet (l : List String) : List String := (dedupGo [] l).foldr insertSorted []

/-- Python slice `l[:k]` for a possibly negative `k`. -/
def pySliceTo {α : Type} (l : List α) (k : Int) : List α :=
  if 0 ≤ k then l.take k.toNat else l.take (l.length - (-k).toNat)

/-- Exact round-half-to-even of `n / d` (`d > 0`); models Python `round(n/d)` where the
float quotient rounds the same way as the exact rational (see module docstring). -/
def pyRoundDiv (n d : Nat) : Nat :=
  let q := n / d
  let r := n % d
  if 2 * r < d then q else if d < 2 * r then q + 1 else if q % 2 = 0 then q else q + 1

/-! ### A tiny regex AST covering the module's patterns

`Pat.rems p cs` returns the list of possible remainders of a match of `p` at the start
of `cs`, in backtracking priority order (greedy repetition, left alternative first), so
`(Pat.rems p cs).head?` is the Python `re` match at this position, when one exists. -/

inductive Pat where
  | eps : Pat
  | cls : (Char → Bool) → Pat
  | seq : Pat → Pat → Pat
  | alt : Pat → Pat → Pat
  | reps : (Char → Bool) → Nat → Option Nat → Pat

/-- Remainders for `[class]{lo,hi}` (`hi = none` for unbounded), greedy order. -/
def repRems (f : Char → Bool) (lo : Nat) (hi : Option Nat) (cs : List Char) : List (List Char) :=
  let run := (cs.takeWhile f).length
  let hiN := match hi with | none => run | some h => min h run
  if lo ≤ hiN then (List.range (hiN + 1 - lo)).map (fun i => cs.drop (hiN - i)) else []

def Pat.rems : Pat → List Char → List (List Char)
  | .eps, cs => [cs]
  | .cls _, [] => []
  | .cls f, c :: cs => if f c then [cs] else []
  | .seq p q, cs => (p.rems cs).flatMap q.rems
  | .alt p q, cs => p.rems cs ++ q.rems cs
  | .reps f lo hi, cs => repRems f lo hi cs

/-- `p?` -/
def optP (p : Pat) : Pat := .alt p .eps

/-- A literal string as a pattern. -/
def strPat (s : String) : Pat := s.data.foldr (fun c p => .seq (.cls (· == c)) p) .eps

/-- Python `re.findall`: scan left to right, take the match at each position if any
(non-overlapping: resume after a match).  `fuel` is an upper bound on steps; callers
pass `cs.length + 1`.  The module's patterns never match the empty string. -/
def findAllAux (p : Pat) : Nat → List Char → List (List Char)
  | 0, _ => []
  | _ + 1, [] => []
  | fuel + 1, c :: cs =>
    match (p.rems (c :: cs)).head? with
    | some rem =>
      let len := (c :: cs).length - rem.length
      if 0 < len then ((c :: cs).take len) :: findAllAux p fuel rem
      else findAllAux p fuel cs
    | none => findAllAux p fuel cs

def findAllPat (p : Pat) (s : String) : List String :=
  (findAllAux p (s.data.length + 1) s.data).map (fun cs => String.mk cs)

/-! ### URLs and anchors -/

/-- The fields of `urllib.parse.urlparse` the module reads. -/
structure Url where
  scheme : String
  netloc : String
  path : String
deriving DecidableEq

/-- An anchor `href` attribute after `.strip()`, classified the way `_discover_links`
distinguishes hrefs.  `javascriptH` stands for hrefs containing `"javascript:"`. -/
inductive Href where
  | emptyH : Href
  | fragment : String → Href
  | mailto : String → Href
  | tel : String → Href
  | javascriptH : String → Href
  | absolute : String → String → String → Href
  | rootRel : String → Href
  | relative : String → Href
deriving DecidableEq

/-- The raw href text (used as the anchor label fallback). -/
def hrefString : Href → String
  | .emptyH => ""
  | .fragment s => "#" ++ s
  | .mailto s => "mailto:" ++ s
  | .tel s => "tel:" ++ s
  | .javascriptH s => "javascript:" ++ s
  | .absolute sc n p => sc ++ "://" ++ n ++ p
  | .rootRel p => p
  | .relative p => p

/-- Directory of a path for relative resolution: the prefix up to and including the
last `/`, or `/` for an empty/slashless path (dot segments are out of model; the
module's claims do not depend on them). -/
def dirOf (p : String) : String :=
  let cs := p.data.reverse.dropWhile (fun c => c != '/')
  if cs.isEmpty then "/" else String.mk cs.reverse

/-- `urllib.parse.urljoin(base, href)` on the href cases reaching it in
`_discover_links` (the fragment/mailto/tel/javascript cases are skipped before the
join, so their value here is immaterial). -/
def urljoinModel (base : Url) : Href → Url
  | .absolute sc n p => ⟨sc, n, p⟩
  | .rootRel p => ⟨base.scheme, base.netloc, p⟩
  | .relative p => ⟨base.scheme, base.netloc, dirOf base.path ++ p⟩
  | _ => base

def urlString (u : Url) : String := u.scheme ++ "://" ++ u.netloc ++ u.path

/-- An `<a href=...>` element: its classified href and `a.get_text(" ", strip=True)`. -/
structure Anchor where
  href : Href
  label : String
deriving DecidableEq

/-! ### Module constants (crawler.py lines 8–21, 47–53) -/

def DEFAULT_UA : String := "ICPFinder-Bot/1.0 (+https://nexiuslabs.com)"

def MAX_PAGES : Int := 6

def TARGET_KEYWORDS : List String :=
  ["pricing", "plans", "packages", "cost",
   "services", "solutions", "products",
   "about", "about us", "team",
   "contact", "contact us",
   "industries", "sectors",
   "case studies", "success stories", "portfolio",
   "blog", "news", "insights",
   "careers", "jobs", "hiring"]

/-- `SKIP_EXT` applied with `.search` to a path: the pattern is end-anchored and
case-insensitive, equivalent to a case-insensitive suffix test. -/
def SKIP_EXT_SUFFIXES : List String :=
  [".pdf", ".jpg", ".jpeg", ".png", ".gif", ".zip", ".doc", ".docx"]

def skipExtMatch (path : String) : Bool :=
  SKIP_EXT_SUFFIXES.any (fun e => e.data.isSuffixOf (strLower path).data)

/-- `TECH_PATTERNS`, each regex pattern unescaped to the literal substring it searches
for, paired with the label the source stores for it, namely the result of
`patt.strip("\\").strip("r")` (which turns `hotjar` into `hotja` and
`googletagmanager` into `googletagmanage`). -/
def TECH_PATTERNS : List (String × List (String × String)) :=
  [("analytics", [("gtag(", "gtag\\("), ("googletagmanager", "googletagmanage"),
                  ("hotjar", "hotja"), ("mixpanel", "mixpanel"), ("clarity", "clarity")]),
   ("crm", [("hubspot", "hubspot"), ("salesforce", "salesforce"), ("zoho", "zoho"),
            ("pipedrive", "pipedrive"), ("closeio", "closeio")]),
   ("cms", [("wp-content", "wp-content"), ("wordpress", "wordpress"),
            ("squarespace", "squarespace"), ("wix", "wix"), ("ghost", "ghost")]),
   ("ecommerce", [("shopify", "shopify"), ("woocommerce", "woocommerce"),
                  ("magento", "magento"), ("bigcommerce", "bigcommerce")]),
   ("messaging", [("intercom", "intercom"), ("drift", "drift"),
                  ("tawk.to", "tawk\\.to"), ("crisp", "crisp")])]

/-! ### _discover_links (crawler.py lines 60–76)

The source collects matches into a Python `set` and returns `list(found)`; the
iteration order of that set is implementation defined (hash based).  The model below
keeps insertion order, and only permutation-invariant facts about the result
(membership, length) are asserted by the theorems. -/

def skipHref : Href → Bool
  | .emptyH => true
  | .fragment _ => true
  | .mailto _ => true
  | .tel _ => true
  | .javascriptH _ => true
  | _ => false

def anyKeyword (s : String) : Bool := TARGET_KEYWORDS.any (fun k => containsSub s k)

/-- `label = (a.get_text(" ", strip=True) or href).lower()`. -/
def anchorLabel (a : Anchor) : String :=
  strLower (if a.label = "" then hrefString a.href else a.label)

/-- One iteration of the `_discover_links` loop body for anchor `a` (the source's
local `full` is written out as `urljoinModel baseUrl a.href`). -/
def processAnchor (baseUrl : Url) (found : List Url) (a : Anchor) : List Url :=
  if skipHref a.href then found
  else if (urljoinModel baseUrl a.href).netloc ≠ baseUrl.netloc then found
  else if skipExtMatch (urljoinModel baseUrl a.href).path then found
  else if anyKeyword (anchorLabel a)
          || anyKeyword (strLower (urlString (urljoinModel baseUrl a.href))) then
    if urljoinModel baseUrl a.href ∈ found then found
    else found ++ [urljoinModel baseUrl a.href]
  else found

def discoverLoop (baseUrl : Url) : List Anchor → List Url → List Url
  | [], found => found
  | a :: rest, found =>
      if 6 ≤ (processAnchor baseUrl found a).length then processAnchor baseUrl found a
      else discoverLoop baseUrl rest (processAnchor baseUrl found a)

def _discover_links (anchors : List Anchor) (baseUrl : Url) : List Url :=
  discoverLoop baseUrl anchors []

/-! ### _extract_emails / _extract_phones (crawler.py lines 41–45) -/

def isEmailLocalChar (c : Char) : Bool :=
  c.isAlphanum || c == '.' || c == '_' || c == '%' || c == '+' || c == '-'

def isDomainChar (c : Char) : Bool := c.isAlphanum || c == '.' || c == '-'

/-- The email pattern of `_extract_emails`. -/
def emailPat : Pat :=
  .seq (.reps isEmailLocalChar 1 none)
    (.seq (.cls (· == '@'))
      (.seq (.reps isDomainChar 1 none)
        (.seq (.cls (· == '.')) (.reps Char.isAlpha 2 none))))

def _extract_emails (text : String) : List String := sortedSet (findAllPat emailPat text)

def isSepChar (c : Char) : Bool := c.isWhitespace || c == '.' || c == '-'

/-- The loose phone pattern of `_extract_phones`: optional `+`-prefixed country code
(1–3 digits) with optional separator, optional parenthesised area code (2–4 digits)
with optional separator, then 3–4 digits, optional separator, 4 digits. -/
def phonePat : Pat :=
  .seq (optP (.seq (optP (.cls (· == '+')))
               (.seq (.reps Char.isDigit 1 (some 3)) (optP (.cls isSepChar)))))
    (.seq (optP (.seq (optP (.cls (· == '(')))
                  (.seq (.reps Char.isDigit 2 (some 4))
                    (.seq (optP (.cls (· == ')'))) (optP (.cls isSepChar))))))
      (.seq (.reps Char.isDigit 3 (some 4))
        (.seq (optP (.cls isSepChar)) (.reps Char.isDigit 4 (some 4)))))

def _extract_phones (text : String) : List String := sortedSet (findAllPat phonePat text)

/-! ### _extract_signals (crawler.py lines 78–140) -/

structure Tech where
  analytics : List String
  crm : List String
  cms : List String
  ecommerce : List String
  messaging : List String
deriving DecidableEq

structure Contact where
  emails : List String
  phones : List String
  address : Option String
deriving DecidableEq

structure Hiring where
  careersPage : Bool
  openRoles : Nat
deriving DecidableEq

structure Signals where
  title : String
  metaDescription : String
  valueProps : List String
  productsServices : List String
  pricing : List String
  industryCandidates : List String
  contact : Contact
  tech : Tech
  hasCaseStudies : Bool
  hasTestimonials : Bool
  hasCareersPage : Bool
  openRolesCount : Nat
  languages : List String
  hiring : Hiring
deriving DecidableEq

/-- The BeautifulSoup view of a fetched page (see module docstring). -/
structure Doc where
  titleTag : Option String
  metaDescContent : Option String
  headings : List String
  bullets : List String
  text : String
  scriptSrcs : List String
  linkHrefs : List String
  inlineScripts : List String
  htmlLang : Option String
  anchors : List Anchor
deriving DecidableEq

def techBucketFor (blob : String) (bucket : String) : List String :=
  match TECH_PATTERNS.find? (fun p => p.1 == bucket) with
  | some p => (p.2.filter (fun q => containsSub blob q.1)).map (fun q => q.2)
  | none => []

/-- The open-roles pattern: digits, whitespace, then one of the three nouns. -/
def openRolesPat : Pat :=
  .seq (.reps Char.isDigit 1 none)
    (.seq (.reps Char.isWhitespace 1 none)
      (.alt (strPat "open roles") (.alt (strPat "jobs") (strPat "positions"))))

def digitsToNat (cs : List Char) : Nat :=
  cs.foldl (fun n c => n * 10 + (c.toNat - 48)) 0

/-- `_extract_signals(html, base_url)`; the `base_url` parameter is unused in the
source as well. -/
def _extract_signals (doc : Doc) (_baseUrl : Url) : Signals :=
  let title := strTrim (doc.titleTag.getD "")
  let metaDesc := strTrim (doc.metaDescContent.getD "")
  let headings := doc.headings
  let bullets := doc.bullets
  let valueProps := (headings.take 8).filter
      (fun t => decide (3 ≤ wordCount t ∧ wordCount t ≤ 18))
  let productsServices := (bullets.filter
      (fun t => decide (2 ≤ wordCount t ∧ wordCount t ≤ 10))).take 20
  let text := doc.text
  let emails := _extract_emails text
  let phones := _extract_phones text
  let blob := strLower (joinSp (doc.scriptSrcs ++ doc.linkHrefs) ++ " " ++
               joinSp doc.inlineScripts)
  let tech : Tech := ⟨techBucketFor blob "analytics", techBucketFor blob "crm",
                      techBucketFor blob "cms", techBucketFor blob "ecommerce",
                      techBucketFor blob "messaging"⟩
  let kwText := strLower (title ++ " " ++ metaDesc ++ " " ++ joinSp headings ++
                 joinSp bullets)
  let hasCase := ["case studies", "success stories", "portfolio", "clients"].any
      (fun k => containsSub kwText k)
  let hasTestimonials := ["testimonials", "reviews"].any (fun k => containsSub kwText k)
  let hasCareers := ["careers", "jobs", "hiring"].any (fun k => containsSub kwText k)
  let openRoles := (findAllPat openRolesPat (strLower text)).foldl
      (fun n m => max n (digitsToNat (m.data.takeWhile Char.isDigit))) 0
  let languages := match doc.htmlLang with
    | some l => if l = "" then [] else [l]
    | none => []
  let pricing := (bullets.filter (fun t =>
      let tl := strLower t
      (containsSub tl "plan" || containsSub tl "tier" || containsSub tl "price") &&
      (containsSub tl "$" || containsWord tl "sgd" || containsWord tl "usd" ||
       containsWord tl "per"))).take 10
  { title := title
    metaDescription := metaDesc
    valueProps := valueProps
    productsServices := productsServices
    pricing := pricing
    industryCandidates := []
    contact := ⟨emails, phones, none⟩
    tech := tech
    hasCaseStudies := hasCase
    hasTestimonials := hasTestimonials
    hasCareersPage := hasCareers
    openRolesCount := openRoles
    languages := languages
    hiring := ⟨hasCareers, openRoles⟩ }

/-! ### _derive_features (crawler.py lines 142–160) -/

def B2B_TERMS : List String :=
  ["clients", "enterprise", "b2b", "solutions", "consulting", "services", "agency"]

def B2C_TERMS : List String :=
  ["customers", "shop", "store", "retail", "buy", "purchase"]

structure Derived where
  b2x : String
  companySizeGuess : String
  buyerRoleGuess : String
  budgetHint : String
  urgencyHint : String
  buyingProcessGuess : String
  triggers : List String
  riskFlags : List String
  problemTermsRanked : List String
deriving DecidableEq

/-- The lowercased text blob `_derive_features` searches. -/
def deriveText (signals : Signals) : String :=
  strLower (signals.title ++ " " ++ signals.metaDescription ++ " " ++
   joinSp signals.valueProps ++ " " ++ joinSp signals.productsServices)

def deriveB2x (text : String) : String :=
  if B2B_TERMS.any (fun t => containsSub text t) then "b2b"
  else if B2C_TERMS.any (fun t => containsSub text t) then "b2c"
  else "unknown"

def deriveSizeGuess (text : String) : String :=
  if containsSub text "enterprise" || containsSub text "global" then "51-200"
  else if containsSub text "startup" || containsSub text "small team" then "2-10"
  else "unknown"

def _derive_features (signals : Signals) : Derived :=
  let text := deriveText signals
  let b2x := deriveB2x text
  let sizeGuess := deriveSizeGuess text
  let urgencyHint := if 0 < signals.openRolesCount then "1-3_months"
                     else if signals.hasCaseStudies then "3-6_months"
                     else "none"
  let buying := if sizeGuess = "51-200" then "multi_step_process" else "single_decision_maker"
  { b2x := b2x
    companySizeGuess := sizeGuess
    buyerRoleGuess := "Unknown"
    budgetHint := "unknown"
    urgencyHint := urgencyHint
    buyingProcessGuess := buying
    triggers := if urgencyHint = "1-3_months" then ["hiring_for_growth"] else []
    riskFlags := []
    problemTermsRanked := [] }

/-! ### _rule_score (crawler.py lines 162–182) -/

structure ScoreResult where
  ruleScore : Nat
  ruleBand : String
  shortlist : List String
deriving DecidableEq

/-- The additive `total` of `_rule_score` (all addends are nonnegative, so the Python
`max(0, ...)` clamp below is the identity and `Nat` is a faithful carrier). -/
def scoreTotal (signals : Signals) (derived : Derived) : Nat :=
  (if derived.b2x = "b2b" then 3 else if derived.b2x = "unknown" then 1 else 0) +
  (if derived.companySizeGuess ∈ (["2-10", "11-50", "51-200"] : List String) then 2 else 0) +
  (if signals.hasCaseStudies then 2 else 0) +
  (if signals.hasCareersPage then 2 else 0) +
  (if 0 < signals.openRolesCount then 2 else 0) +
  (if signals.tech.crm ≠ [] ∨ signals.tech.analytics ≠ [] then 2 else 0) +
  (if signals.contact.emails ≠ [] then 2 else 0) +
  (if signals.pricing ≠ [] then 2 else 0)

/-- `score = round((max(0, min(total, 48)) / 48) * 100)`. -/
def ruleScoreValue (signals : Signals) (derived : Derived) : Nat :=
  pyRoundDiv (min (scoreTotal signals derived) 48 * 100) 48

def ruleBandOf (score : Nat) : String :=
  if 75 ≤ score then "Ideal ICP"
  else if 50 ≤ score then "Good fit"
  else "Poor fit"

/-- The shortlist tags, appended in source order, with the `"other"` fallback. -/
def ruleShortlist (signals : Signals) (derived : Derived) : List String :=
  let l1 : List String :=
    if derived.companySizeGuess = "solo" ∧ derived.b2x = "b2b" then ["solo_services"] else []
  let l2 := l1 ++ (if signals.tech.ecommerce ≠ [] then ["smb_ecom"] else [])
  let l3 := l2 ++ (if derived.b2x = "b2b" then ["b2b_agency"] else [])
  if l3 = [] then ["other"] else l3

def _rule_score (signals : Signals) (derived : Derived) : ScoreResult :=
  let score := ruleScoreValue signals derived
  ⟨score, ruleBandOf score, ruleShortlist signals derived⟩

/-! ### The per-page merge of crawl_site (crawler.py lines 199–216) -/

/-- `sorted(set(a + b))[:40]`. -/
def cap40sorted (a b : List String) : List String := (sortedSet (a ++ b)).take 40

/-- Merging one successfully fetched sub-page's signals `s2` into `s`. -/
def mergePage (s : Signals) (s2 : Signals) : Signals :=
  { s with
    valueProps := cap40sorted s.valueProps s2.valueProps
    productsServices := cap40sorted s.productsServices s2.productsServices
    pricing := cap40sorted s.pricing s2.pricing
    languages := cap40sorted s.languages s2.languages
    contact := ⟨cap40sorted s.contact.emails s2.contact.emails,
                cap40sorted s.contact.phones s2.contact.phones,
                s.contact.address⟩
    tech := ⟨cap40sorted s.tech.analytics s2.tech.analytics,
             cap40sorted s.tech.crm s2.tech.crm,
             cap40sorted s.tech.cms s2.tech.cms,
             cap40sorted s.tech.ecommerce s2.tech.ecommerce,
             cap40sorted s.tech.messaging s2.tech.messaging⟩
    hasCaseStudies := s.hasCaseStudies || s2.hasCaseStudies
    hasTestimonials := s.hasTestimonials || s2.hasTestimonials
    hasCareersPage := s.hasCareersPage || s2.hasCareersPage
    openRolesCount := max s.openRolesCount s2.openRolesCount }

/-- The merge loop over all successfully fetched sub-pages. -/
def mergeAll (root : Signals) (subs : List Signals) : Signals := subs.foldl mergePage root

/-! ### crawl_site (crawler.py lines 184–230)

The network is abstracted by a `Web` oracle: `robots u` is the boolean answer of
`ROBOTS.allowed` for `u` (the `try/except` around the sub-page robots checks is inert
because `RobotsCache.allowed` catches its own fetch exceptions), and `fetch u` is
`some doc` when `_fetch` succeeds and `none` when it raises.  A `none` root fetch or
a robots-blocked root makes `crawl_site` raise, modelled as `none`.  The wall-clock
`ts` field of `crawl_metadata` is not modelled. -/

structure Web where
  robots : Url → Bool
  fetch : Url → Option Doc

structure Summary where
  url : Url
  title : String
  description : String
  contentSummary : String
  keyPages : List Url
  signals : Signals
  ruleScore : Nat
  ruleBand : String
  shortlist : List String
  fetchedPages : Nat
deriving DecidableEq

/-- `_discover_links(html, base)[:max_pages-1]` filtered by the robots gate. -/
def crawlAllowed (web : Web) (doc : Doc) (base : Url) (maxPages : Int) : List Url :=
  (pySliceTo (_discover_links doc.anchors base) (maxPages - 1)).filter web.robots

def crawl_site (web : Web) (url : Url) (maxPages : Int) : Option Summary :=
  let base : Url := ⟨url.scheme, url.netloc, ""⟩
  if web.robots url then
    match web.fetch url with
    | none => none
    | some doc =>
      let signals := _extract_signals doc base
      let allowed := crawlAllowed web doc base maxPages
      let subSignals := (allowed.filterMap web.fetch).map (fun d => _extract_signals d base)
      let merged := mergeAll signals subSignals
      let derived := _derive_features merged
      let scored := _rule_score merged derived
      some { url := url
             title := merged.title
             description := merged.metaDescription
             contentSummary := String.intercalate " | " (merged.valueProps.take 6)
             keyPages := allowed
             signals := merged
             ruleScore := scored.ruleScore
             ruleBand := scored.ruleBand
             shortlist := scored.shortlist
             fetchedPages := 1 + allowed.length }
  else none

/-! ### RobotsCache (crawler.py lines 23–39)

`urllib.robotparser` is standard-library code, modelled here from its CPython
behaviour: `parse` runs a 3-state line machine producing user-agent entries with
allow/disallow rule lines (percent-quoting of paths is out of model), and
`can_fetch` answers from the first applicable entry, the `*` default entry, or
`True` when there is neither.  `parse([])` therefore yields the allow-all ruleset
`⟨[], none⟩`. -/

structure RuleLine where
  path : String
  allow : Bool
deriving DecidableEq

structure RobotsEntry where
  useragents : List String
  rulelines : List RuleLine
deriving DecidableEq

structure Ruleset where
  entries : List RobotsEntry
  defaultEntry : Option RobotsEntry
deriving DecidableEq

/-- `RuleLine.__init__`: an empty Disallow path means allow everything. -/
def mkRuleLine (path : String) (allow : Bool) : RuleLine :=
  if path = "" ∧ allow = false then ⟨"", true⟩ else ⟨path, allow⟩

/-- `RobotFileParser._add_entry`. -/
def addEntry (rs : Ruleset) (e : RobotsEntry) : Ruleset :=
  if "*" ∈ e.useragents then
    match rs.defaultEntry with
    | none => { rs with defaultEntry := some e }
    | some _ => rs
  else { rs with entries := rs.entries ++ [e] }

/-- `line.split(":", 1)` with key lowercased/stripped and value stripped. -/
def splitKV (line : String) : Option (String × String) :=
  match splitOnChar line ':' with
  | [] => none
  | [_] => none
  | k :: rest => some (strLower (strTrim k), strTrim (String.intercalate ":" rest))

/-- One iteration of `RobotFileParser.parse`'s loop; the state is
(line state, current entry, accumulated ruleset). -/
def parseLine (st : Nat × RobotsEntry × Ruleset) (rawLine : String) : Nat × RobotsEntry × Ruleset :=
  let (state0, entry0, rs0) := st
  let (state, entry, rs) :=
    if rawLine = "" then
      if state0 = 1 then (0, (⟨[], []⟩ : RobotsEntry), rs0)
      else if state0 = 2 then (0, (⟨[], []⟩ : RobotsEntry), addEntry rs0 entry0)
      else (state0, entry0, rs0)
    else (state0, entry0, rs0)
  let line := strTrim ((splitOnChar rawLine '#').headD "")
  if line = "" then (state, entry, rs)
  else
    match splitKV line with
    | none => (state, entry, rs)
    | some (key, val) =>
      if key = "user-agent" then
        let (entry1, rs1) := if state = 2 then ((⟨[], []⟩ : RobotsEntry), addEntry rs entry)
                             else (entry, rs)
        (1, ⟨entry1.useragents ++ [val], entry1.rulelines⟩, rs1)
      else if key = "disallow" then
        if state ≠ 0 then (2, ⟨entry.useragents, entry.rulelines ++ [mkRuleLine val false]⟩, rs)
        else (state, entry, rs)
      else if key = "allow" then
        if state ≠ 0 then (2, ⟨entry.useragents, entry.rulelines ++ [mkRuleLine val true]⟩, rs)
        else (state, entry, rs)
      else (state, entry, rs)

def parseRobots (lines : List String) : Ruleset :=
  let (state, entry, rs) := lines.foldl parseLine (0, (⟨[], []⟩ : RobotsEntry), (⟨[], none⟩ : Ruleset))
  if state = 2 then addEntry rs entry else rs

def RuleLine.appliesTo (rl : RuleLine) (filename : String) : Bool :=
  rl.path = "*" || rl.path.data.isPrefixOf filename.data

def RobotsEntry.allowance (e : RobotsEntry) (filename : String) : Bool :=
  match e.rulelines.find? (fun rl => rl.appliesTo filename) with
  | some rl => rl.allow
  | none => true

def RobotsEntry.appliesTo (e : RobotsEntry) (ua : String) : Bool :=
  let agent := strLower ((splitOnChar ua '/').headD "")
  e.useragents.any (fun a => a == "*" || containsSub agent (strLower a))

def Ruleset.canFetch (rs : Ruleset) (ua : String) (u : Url) : Bool :=
  let path := if u.path = "" then "/" else u.path
  match rs.entries.find? (fun e => e.appliesTo ua) with
  | some e => e.allowance path
  | none =>
    match rs.defaultEntry with
    | some e => e.allowance path
    | none => true

/-- `origin = f"{scheme}://{netloc}"`, the cache key of `RobotsCache`. -/
def originOf (u : Url) : String := u.scheme ++ "://" ++ u.netloc

abbrev RobotsCacheState := List (String × Ruleset)

def lookupRuleset (cache : RobotsCacheState) (k : String) : Option Ruleset :=
  (cache.find? (fun p => p.1 == k)).map Prod.snd

/-- `RobotsCache.allowed`, with the HTTP fetch of `origin/robots.txt` abstracted as
`fetchRes`: `.error ()` when `client.get` raises, `.ok (status, splitlines)`
otherwise.  Returns the answer together with the updated cache. -/
def RobotsCache.allowed (cache : RobotsCacheState) (fetchRes : Except Unit (Nat × List String))
    (url : Url) (ua : String) : Bool × RobotsCacheState :=
  let base := originOf url
  match lookupRuleset cache base with
  | some rp => (rp.canFetch ua url, cache)
  | none =>
    let rp := match fetchRes with
      | .error _ => parseRobots []
      | .ok (status, lines) => if 400 ≤ status then parseRobots [] else parseRobots lines
    (rp.canFetch ua url, (base, rp) :: cache)

/-! ### The spec's reading of value_props (for the refinement comparison of C7) -/

/-- Modelled from the spec's words: "first 8 heading texts (`h1`–`h3`) whose word
count is in [3,18]" — the filter applied before the truncation to 8. -/
def valuePropsSpecFirst8 (headings : List String) : List String :=
  (headings.filter (fun t => decide (3 ≤ wordCount t ∧ wordCount t ≤ 18))).take 8

/-! ### Bound predicates for the cap claims -/

/-- The per-page extraction caps claimed for `_extract_signals`. -/
def extractCapsOk (s : Signals) : Prop :=
  s.valueProps.length ≤ 8 ∧ s.productsServices.length ≤ 20 ∧ s.pricing.length ≤ 10

/-- "Every list-valued field has at most 40 entries" for a merged `Signals`. -/
def signalCapsOk (s : Signals) : Prop :=
  s.valueProps.length ≤ 40 ∧ s.productsServices.length ≤ 40 ∧ s.pricing.length ≤ 40 ∧
  s.languages.length ≤ 40 ∧ s.contact.emails.length ≤ 40 ∧ s.contact.phones.length ≤ 40 ∧
  s.tech.analytics.length ≤ 40 ∧ s.tech.crm.length ≤ 40 ∧ s.tech.cms.length ≤ 40 ∧
  s.tech.ecommerce.length ≤ 40 ∧ s.tech.messaging.length ≤ 40

/-! ### Concrete instances used by counterexamples and witnesses -/

def baseEx : Url := ⟨"https", "example.com", ""⟩

def urlEx : Url := ⟨"https", "example.com", "/"⟩

/-- A keyword-matching anchor whose absolute href swaps the scheme. -/
def anchorPricingHttp : Anchor := ⟨.absolute "http" "example.com" "/pricing", "Pricing"⟩

/-- 41 distinct local parts, giving 41 distinct email addresses in one page text. -/
def emailLocals : List String :=
  ["a", "b", "c", "d", "e", "f", "g", "h", "i", "j", "k", "l", "m", "n", "o", "p", "q",
   "r0", "s", "t", "u", "v", "w", "x", "y", "z", "0", "1", "2", "3", "4", "5", "6", "7",
   "8", "9", "%", "+", "-", ".", "_"]

def text41 : String := String.intercalate " " (emailLocals.map (fun l => l ++ "@b.cc"))

/-- A root page whose visible text contains 41 distinct emails and that has no links. -/
def docEmails : Doc := ⟨none, none, [], [], text41, [], [], [], none, []⟩

def webEmails : Web := ⟨fun _ => true, fun u => if u = urlEx then some docEmails else none⟩

/-- A trivial root page with no links. -/
def docPlain : Doc := ⟨some "Home", none, [], [], "", [], [], [], none, []⟩

def webPlain : Web := ⟨fun _ => true, fun u => if u = urlEx then some docPlain else none⟩

/-- Nine headings, the first below the word-count window, the other eight inside it. -/
def docHeads : Doc :=
  ⟨none, none,
   ["Hi", "a b c", "b c d", "c d e", "d e f", "e f g", "f g h", "g h i", "h i j"],
   [], "", [], [], [], none, []⟩

def sigEmpty : Signals :=
  ⟨"", "", [], [], [], [], ⟨[], [], none⟩, ⟨[], [], [], [], []⟩, false, false, false, 0,
   [], ⟨false, 0⟩⟩

def dummySummary : Summary := ⟨⟨"", "", ""⟩, "", "", "", [], sigEmpty, 0, "", [], 0⟩

/-! ## Theorems -/

/-! ### Scoring bounds (C2, C3) -/

theorem scoreTotal_le_17 (s : Signals) (d : Derived) : scoreTotal s d ≤ 17 := by
  unfold scoreTotal
  have h1 : (if d.b2x = "b2b" then 3 else if d.b2x = "unknown" then 1 else 0) ≤ 3 := by
    split
    · omega
    · split <;> omega
  have h2 : (if d.companySizeGuess ∈ (["2-10", "11-50", "51-200"] : List String) then 2 else 0) ≤ 2 := by
    split <;> omega
  have h3 : (if s.hasCaseStudies then 2 else 0) ≤ 2 := by split <;> omega
  have h4 : (if s.hasCareersPage then 2 else 0) ≤ 2 := by split <;> omega
  have h5 : (if 0 < s.openRolesCount then 2 else 0) ≤ 2 := by split <;> omega
  have h6 : (if s.tech.crm ≠ [] ∨ s.tech.analytics ≠ [] then 2 else 0) ≤ 2 := by split <;> omega
  have h7 : (if s.contact.emails ≠ [] then 2 else 0) ≤ 2 := by split <;> omega
  have h8 : (if s.pricing ≠ [] then 2 else 0) ≤ 2 := by split <;> omega
  omega

theorem rule_score_le_35 (s : Signals) (d : Derived) : (_rule_score s d).ruleScore ≤ 35 := by
  have hb : ∀ t < 18, pyRoundDiv (min t 48 * 100) 48 ≤ 35 := by decide
  exact hb (scoreTotal s d) (Nat.lt_succ_of_le (scoreTotal_le_17 s d))

/-- C2: for every `(signals, derived)` input, `_rule_score` returns
`0 ≤ rule_score ≤ 100`, and `rule_band` is determined by the documented thresholds:
`≥ 75` gives "Ideal ICP", `50 ≤ score < 75` gives "Good fit", `< 50` gives
"Poor fit". -/
theorem rule_score_bounds_and_bands (s : Signals) (d : Derived) :
    0 ≤ (_rule_score s d).ruleScore ∧ (_rule_score s d).ruleScore ≤ 100 ∧
    (_rule_score s d).ruleBand =
      (if 75 ≤ (_rule_score s d).ruleScore then "Ideal ICP"
       else if 50 ≤ (_rule_score s d).ruleScore then "Good fit"
       else "Poor fit") :=
  ⟨Nat.zero_le _, le_trans (rule_score_le_35 s d) (by omega), rfl⟩

/-- C3: for every `(signals, derived)` input, the additive total is at most 17,
so `rule_score` is at most 35 and `rule_band` is always "Poor fit" — the bands
"Ideal ICP" and "Good fit" are unreachable. -/
theorem rule_score_capped_poor_fit (s : Signals) (d : Derived) :
    scoreTotal s d ≤ 17 ∧ (_rule_score s d).ruleScore ≤ 35 ∧
    (_rule_score s d).ruleBand = "Poor fit" := by
  refine ⟨scoreTotal_le_17 s d, rule_score_le_35 s d, ?_⟩
  have h := rule_score_le_35 s d
  have hx : (_rule_score s d).ruleBand = ruleBandOf ((_rule_score s d).ruleScore) := rfl
  rw [hx]
  unfold ruleBandOf
  rw [if_neg (by omega), if_neg (by omega)]

/-! ### Dead "solo" branch (C10) -/

theorem derive_size_cases (s : Signals) :
    (_derive_features s).companySizeGuess = "unknown" ∨
    (_derive_features s).companySizeGuess = "51-200" ∨
    (_derive_features s).companySizeGuess = "2-10" := by
  have hx : (_derive_features s).companySizeGuess = deriveSizeGuess (deriveText s) := rfl
  rw [hx]
  unfold deriveSizeGuess
  split
  · right; left; rfl
  · split
    · right; right; rfl
    · left; rfl

theorem shortlist_no_solo (s : Signals) (d : Derived) (h : d.companySizeGuess ≠ "solo") :
    "solo_services" ∉ (_rule_score s d).shortlist := by
  have hx : (_rule_score s d).shortlist = ruleShortlist s d := rfl
  rw [hx]
  unfold ruleShortlist
  have h1 : ¬ (d.companySizeGuess = "solo" ∧ d.b2x = "b2b") := fun hc => h hc.1
  by_cases he : s.tech.ecommerce = []
  · by_cases hb : d.b2x = "b2b" <;> simp [h1, he, hb, h]
  · by_cases hb : d.b2x = "b2b" <;> simp [h1, he, hb, h]

/-- C10: `_derive_features` only ever produces company_size_guess in
{"unknown", "51-200", "2-10"} (never "solo"), so under the composition
`_rule_score(signals, _derive_features(signals))` the shortlist never contains
"solo_services" — that branch is dead code. -/
theorem derive_never_solo_shortlist (s : Signals) :
    ((_derive_features s).companySizeGuess = "unknown" ∨
     (_derive_features s).companySizeGuess = "51-200" ∨
     (_derive_features s).companySizeGuess = "2-10") ∧
    "solo_services" ∉ (_rule_score s (_derive_features s)).shortlist := by
  have hc := derive_size_cases s
  refine ⟨hc, shortlist_no_solo s _ ?_⟩
  rcases hc with h | h | h <;> rw [h] <;> decide

/-! ### Merge algebra (C9) -/

/-- C9: the merge loop of `crawl_site` ORs each boolean flag over the root and all
merged sub-pages (a true root flag never becomes false) and takes the maximum of
`open_roles_count` over the root and all merged sub-pages. -/
theorem merge_flags_or_roles_max (root : Signals) (subs : List Signals) :
    (mergeAll root subs).hasCaseStudies = (root.hasCaseStudies || subs.any Signals.hasCaseStudies) ∧
    (mergeAll root subs).hasTestimonials = (root.hasTestimonials || subs.any Signals.hasTestimonials) ∧
    (mergeAll root subs).hasCareersPage = (root.hasCareersPage || subs.any Signals.hasCareersPage) ∧
    (mergeAll root subs).openRolesCount =
      subs.foldl (fun n p => max n p.openRolesCount) root.openRolesCount := by
  induction subs generalizing root with
  | nil => refine ⟨?_, ?_, ?_, ?_⟩ <;> simp [mergeAll]
  | cons p ps ih =>
    have h := ih (mergePage root p)
    refine ⟨?_, ?_, ?_, ?_⟩
    · show (mergeAll (mergePage root p) ps).hasCaseStudies = _
      rw [h.1]
      show ((root.hasCaseStudies || p.hasCaseStudies) || ps.any Signals.hasCaseStudies) = _
      simp [Bool.or_assoc]
    · show (mergeAll (mergePage root p) ps).hasTestimonials = _
      rw [h.2.1]
      show ((root.hasTestimonials || p.hasTestimonials) || ps.any Signals.hasTestimonials) = _
      simp [Bool.or_assoc]
    · show (mergeAll (mergePage root p) ps).hasCareersPage = _
      rw [h.2.2.1]
      show ((root.hasCareersPage || p.hasCareersPage) || ps.any Signals.hasCareersPage) = _
      simp [Bool.or_assoc]
    · show (mergeAll (mergePage root p) ps).openRolesCount = _
      rw [h.2.2.2]
      rfl

/-! ### Size caps (C6) -/

theorem length_filterTake_le (l : List String) (p : String → Bool) (n : Nat) :
    ((l.take n).filter p).length ≤ n := by
  refine le_trans (List.length_filter_le _ _) ?_
  rw [List.length_take]
  exact min_le_left _ _

theorem length_takeN_le (l : List String) (n : Nat) : (l.take n).length ≤ n := by
  rw [List.length_take]
  exact min_le_left _ _

theorem extract_caps (doc : Doc) (b : Url) : extractCapsOk (_extract_signals doc b) :=
  ⟨length_filterTake_le doc.headings _ 8,
   length_takeN_le _ 20,
   length_takeN_le _ 10⟩

theorem cap40sorted_le (a b : List String) : (cap40sorted a b).length ≤ 40 :=
  length_takeN_le _ 40

theorem mergePage_caps (s t : Signals) : signalCapsOk (mergePage s t) :=
  ⟨cap40sorted_le _ _, cap40sorted_le _ _, cap40sorted_le _ _, cap40sorted_le _ _,
   cap40sorted_le _ _, cap40sorted_le _ _, cap40sorted_le _ _, cap40sorted_le _ _,
   cap40sorted_le _ _, cap40sorted_le _ _, cap40sorted_le _ _⟩

theorem mergeAll_preserves_caps (subs : List Signals) :
    ∀ root : Signals, signalCapsOk root → signalCapsOk (mergeAll root subs) := by
  induction subs with
  | nil => exact fun root h => h
  | cons p ps ih => exact fun root _ => ih (mergePage root p) (mergePage_caps root p)

theorem mergeAll_caps (root : Signals) (subs : List Signals) (h : subs ≠ []) :
    signalCapsOk (mergeAll root subs) := by
  cases subs with
  | nil => exact absurd rfl h
  | cons p ps => exact mergeAll_preserves_caps ps (mergePage root p) (mergePage_caps root p)

/-- C6 (amended): `_extract_signals` returns at most 8 value_props, 20
products_services and 10 pricing entries, and once `crawl_site` merges the signals of
at least one successfully fetched sub-page, every list-valued field of the merged
signals has at most 40 entries.  (With zero merged sub-pages, `contact.emails` and
`contact.phones` keep the root page's uncapped extraction — see the
counterexample.) -/
theorem extract_and_merge_caps :
    (∀ (doc : Doc) (b : Url), extractCapsOk (_extract_signals doc b)) ∧
    (∀ (root : Signals) (subs : List Signals), subs ≠ [] → signalCapsOk (mergeAll root subs)) :=
  ⟨extract_caps, mergeAll_caps⟩

/-- Witness for C6's amended theorem at a concrete one-sub-page merge. -/
theorem extract_and_merge_caps_witness : signalCapsOk (mergeAll sigEmpty [sigEmpty]) :=
  extract_and_merge_caps.2 sigEmpty [sigEmpty] (by simp)

/-- C6 counterexample: a root page with 41 distinct emails and no discovered links
yields a `crawl_site` summary whose `signals.contact.emails` has 41 > 40 entries. -/
theorem merge_caps_zero_pages_cex :
    (crawl_site webEmails urlEx 6).map (fun s => s.signals.contact.emails.length) = some 41 ∧
    ¬ (41 ≤ 40) :=
  ⟨by decide, by decide⟩

/-! ### value_props truncation order (C7) -/

/-- C7 (amended): `value_props` equals those among the *first 8* headings whose word
count is in [3,18]: the source truncates `headings` to 8 before filtering, not
after. -/
theorem value_props_first8_of_headings (doc : Doc) (b : Url) :
    (_extract_signals doc b).valueProps =
      (doc.headings.take 8).filter (fun t => decide (3 ≤ wordCount t ∧ wordCount t ≤ 18)) :=
  rfl

/-- C7 counterexample: with nine headings whose first is outside the word-count
window, the source returns 7 entries while the spec's "first 8 filtered headings"
reading has 8. -/
theorem value_props_take_filter_cex :
    (_extract_signals docHeads baseEx).valueProps ≠ valuePropsSpecFirst8 docHeads.headings := by
  decide

/-! ### Link discovery netloc invariant (C1) -/

theorem processAnchor_netloc (base : Url) (found : List Url) (a : Anchor)
    (hf : ∀ v ∈ found, v.netloc = base.netloc) :
    ∀ v ∈ processAnchor base found a, v.netloc = base.netloc := by
  intro v hv
  unfold processAnchor at hv
  split at hv
  · exact hf v hv
  · split at hv
    · exact hf v hv
    next hne =>
      split at hv
      · exact hf v hv
      · split at hv
        · split at hv
          · exact hf v hv
          · rcases List.mem_append.mp hv with h2 | h2
            · exact hf v h2
            · have hv2 : v = urljoinModel base a.href := List.mem_singleton.mp h2
              subst hv2
              exact not_ne_iff.mp hne
        · exact hf v hv

theorem discoverLoop_netloc (base : Url) :
    ∀ (anchors : List Anchor) (found : List Url),
      (∀ v ∈ found, v.netloc = base.netloc) →
      ∀ v ∈ discoverLoop base anchors found, v.netloc = base.netloc := by
  intro anchors
  induction anchors with
  | nil =>
    intro found hf v hv
    exact hf v hv
  | cons a rest ih =>
    intro found hf v hv
    have h2 := processAnchor_netloc base found a hf
    unfold discoverLoop at hv
    split at hv
    · exact h2 v hv
    · exact ih _ h2 v hv


/-- C1 (amended): every URL returned by `_discover_links` has the same netloc (host)
as `base_url`; the scheme is not compared, so same-origin (scheme+host) does not hold
in general — see the counterexample. -/
theorem discover_links_same_netloc (anchors : List Anchor) (base : Url) (u : Url)
    (hu : u ∈ _discover_links anchors base) : u.netloc = base.netloc :=
  discoverLoop_netloc base anchors [] (by simp) u hu

/-- Witness for C1's amended theorem at a concrete discovered link. -/
theorem discover_links_same_netloc_witness :
    (⟨"http", "example.com", "/pricing"⟩ : Url).netloc = baseEx.netloc :=
  discover_links_same_netloc [anchorPricingHttp] baseEx _ (by decide)

/-- C1 counterexample: an `http://` anchor on an `https://` page is returned by
`_discover_links` (only the netloc is compared), so the returned URL's origin
(scheme+host) differs from `base_url`'s. -/
theorem discover_links_scheme_mismatch_cex :
    _discover_links [anchorPricingHttp] baseEx = [⟨"http", "example.com", "/pricing"⟩] ∧
    (⟨"http", "example.com", "/pricing"⟩ : Url).scheme ≠ baseEx.scheme := by
  refine ⟨by decide, by decide⟩

/-! ### Fetch budget (C4) -/

theorem length_pySliceTo_le (l : List Url) (k : Int) (hk : 0 ≤ k) :
    (pySliceTo l k).length ≤ k.toNat := by
  unfold pySliceTo
  rw [if_pos hk, List.length_take]
  exact min_le_left _ _

theorem crawlAllowed_length_le (w : Web) (d : Doc) (b : Url) (m : Int) (hm : 1 ≤ m) :
    (crawlAllowed w d b m).length ≤ (m - 1).toNat := by
  unfold crawlAllowed
  exact le_trans (List.length_filter_le _ _) (length_pySliceTo_le _ _ (by omega))

/-- C4 (amended): for every `max_pages ≥ 1`, a completed `crawl_site` call fetches
`fetched_pages = 1 + |allowed sub-pages|` pages in total, and that count is at most
`max_pages`.  (For `max_pages ≤ 0` the bound fails: the root page is always fetched —
see the counterexample.) -/
theorem crawl_site_fetch_bound (w : Web) (u : Url) (m : Int) (s : Summary)
    (hm : 1 ≤ m) (h : crawl_site w u m = some s) :
    s.fetchedPages = 1 + s.keyPages.length ∧ (s.fetchedPages : Int) ≤ m := by
  cases hf : w.fetch u with
  | none =>
    simp only [crawl_site, hf] at h
    split at h <;> exact absurd h (by simp)
  | some doc =>
    simp only [crawl_site, hf] at h
    split at h
    · rw [Option.some.injEq] at h
      subst h
      refine ⟨rfl, ?_⟩
      have hl := crawlAllowed_length_le w doc ⟨u.scheme, u.netloc, ""⟩ m hm
      show ((1 + (crawlAllowed w doc ⟨u.scheme, u.netloc, ""⟩ m).length : Nat) : Int) ≤ m
      omega
    · exact absurd h (by simp)

/-- Witness for C4's amended theorem at a concrete crawl with `max_pages = 6`. -/
theorem crawl_site_fetch_bound_witness :
    (((crawl_site webPlain urlEx 6).getD dummySummary).fetchedPages : Int) ≤ 6 :=
  (crawl_site_fetch_bound webPlain urlEx 6 _ (by decide) (by decide)).2

/-- C4 counterexample: at `max_pages = 0` the root page is still fetched, so
`fetched_pages = 1 > max_pages` (the slice `links[:-1]` does not stop the root
fetch). -/
theorem crawl_site_fetch_bound_cex :
    (crawl_site webPlain urlEx 0).map (fun s => s.fetchedPages) = some 1 ∧
    ¬ ((1 : Int) ≤ 0) :=
  ⟨by decide, by decide⟩

/-! ### Robots fail-open (C5) -/

theorem canFetch_parseRobots_nil (ua : String) (u : Url) :
    (parseRobots []).canFetch ua u = true := rfl

theorem allowed_cache_hit (cache : RobotsCacheState) (fr : Except Unit (Nat × List String))
    (url : Url) (ua : String) (rp : Ruleset)
    (hhit : lookupRuleset cache (originOf url) = some rp) :
    RobotsCache.allowed cache fr url ua = (rp.canFetch ua url, cache) := by
  simp only [RobotsCache.allowed, hhit]

/-- C5: if the robots.txt fetch raises, or returns a status ≥ 400 (the file is
absent/unavailable), then `RobotsCache.allowed` answers `True` for the requested URL,
caches the allow-all ruleset `parse([])` under the URL's origin, and every subsequent
query for any URL of that origin also answers `True` (fail-open). -/
theorem robots_fail_open (cache : RobotsCacheState) (fr : Except Unit (Nat × List String))
    (url : Url) (ua : String)
    (hmiss : lookupRuleset cache (originOf url) = none)
    (herr : fr = Except.error () ∨ ∃ st ls, fr = Except.ok (st, ls) ∧ 400 ≤ st) :
    (RobotsCache.allowed cache fr url ua).1 = true ∧
    lookupRuleset (RobotsCache.allowed cache fr url ua).2 (originOf url) =
      some (parseRobots []) ∧
    (∀ (u2 : Url) (ua2 : String) (fr2 : Except Unit (Nat × List String)),
      originOf u2 = originOf url →
      (RobotsCache.allowed (RobotsCache.allowed cache fr url ua).2 fr2 u2 ua2).1 = true) := by
  have hcall : RobotsCache.allowed cache fr url ua =
      ((parseRobots []).canFetch ua url, (originOf url, parseRobots []) :: cache) := by
    simp only [RobotsCache.allowed, hmiss]
    rcases herr with h | ⟨st, ls, h, hst⟩ <;> subst h
    · rfl
    · simp only [if_pos hst]
  rw [hcall]
  have hlook : lookupRuleset ((originOf url, parseRobots []) :: cache) (originOf url) =
      some (parseRobots []) := by
    simp [lookupRuleset, List.find?]
  refine ⟨canFetch_parseRobots_nil ua url, hlook, ?_⟩
  intro u2 ua2 fr2 h2
  have hlook2 : lookupRuleset ((originOf url, parseRobots []) :: cache) (originOf u2) =
      some (parseRobots []) := by
    rw [h2]
    exact hlook
  rw [allowed_cache_hit _ fr2 u2 ua2 _ hlook2]
  exact canFetch_parseRobots_nil ua2 u2

/-- Witness for C5 at a concrete empty cache and a raising robots.txt fetch. -/
theorem robots_fail_open_witness :
    (RobotsCache.allowed [] (Except.error ()) urlEx DEFAULT_UA).1 = true :=
  (robots_fail_open [] (Except.error ()) urlEx DEFAULT_UA rfl (Or.inl rfl)).1

end LeadCrawler
